import Mathlib

/-!
Verification development for the TuneFree mobile player core.

The embedding below translates the PlayerContext provider (the playback
controller: playSong, togglePlay, seek, playNext, playPrev, addToQueue,
removeFromQueue, togglePlayMode, clearQueue, and the localStorage
persistence layer) together with a small model of the single HTML audio
element the controller drives.  Asynchronous continuations of playSong
(the getSongUrl await and the getSongInfo artwork lookup) are embedded as
explicit state-transformer functions so that interleavings can be stated
directly.  Times are rationals; no arithmetic in the translated code
depends on floating-point rounding.
-/

namespace TuneFree

/-- Song record as used by the player: identifier, display name, artist,
optional album, optional artwork reference, provider tag, and the resolved
playback URL (absent until resolution completes). -/
structure Song where
  id : Nat
  name : String := ""
  artist : String := ""
  album : Option String := none
  pic : Option String := none
  source : String := ""
  url : Option String := none
deriving DecidableEq, Repr

/-- Navigation mode of the queue, named as in the source
(sequence, loop, shuffle). -/
inductive PlayMode where
  | sequence
  | loop
  | shuffle
deriving DecidableEq, Repr

/-- Modelled from the spec: the HTML audio element held in audioRef (the
Output Device Adapter, a platform object not part of the repository
sources).  It holds at most one source URL; src = none models the unset
source, which in the DOM reads as an empty string or the page location.
pos is the playback position, dur the known media duration, playing the
requested play state. -/
structure AudioDevice where
  src : Option String := none
  pos : ℚ := 0
  dur : ℚ := 0
  playing : Bool := false
deriving DecidableEq, Repr

/-- The React state of the PlayerProvider together with the device: the
PlaybackSession of the spec.  currentTime is the optimistic elapsed-time
state variable; duration mirrors the last loadedmetadata report. -/
structure PlayerState where
  currentSong : Option Song := none
  isPlaying : Bool := false
  isLoading : Bool := false
  currentTime : ℚ := 0
  duration : ℚ := 0
  volume : ℚ := 1
  queue : List Song := []
  playMode : PlayMode := PlayMode.sequence
  device : AudioDevice := {}
deriving DecidableEq, Repr

/-- JavaScript Array.findIndex on the queue with the id-equality predicate
used throughout the source: index of the first entry whose id matches, or
-1 when there is none. -/
def jsFindIndex (q : List Song) (cid : Nat) : Int :=
  match q.findIdx? (fun t => t.id == cid) with
  | some i => (i : Int)
  | none => -1

/-- Identifier of the current song; only read under a guard that the
current song exists, so the default value for none is never observable. -/
def currentId (s : PlayerState) : Nat :=
  match s.currentSong with
  | some c => c.id
  | none => 0

/-- addToQueue body (also the queue update inside playSong): append the
song unless an entry with its identifier is already present. -/
def addToQueue (q : List Song) (song : Song) : List Song :=
  if song.id ∈ q.map Song.id then q else q ++ [song]

/-- removeFromQueue: drop every entry whose id matches. -/
def removeFromQueue (q : List Song) (sid : Nat) : List Song :=
  q.filter (fun t => t.id != sid)

/-- clearQueue. -/
def clearQueue (_q : List Song) : List Song := []

/-- togglePlayMode: sequence, then loop, then shuffle, then sequence. -/
def togglePlayMode (m : PlayMode) : PlayMode :=
  match m with
  | PlayMode.sequence => PlayMode.loop
  | PlayMode.loop => PlayMode.shuffle
  | PlayMode.shuffle => PlayMode.sequence

/-- Synchronous prefix of a fresh playSong call (the path taken when the
requested song is not the current one, or the device has no source): set
the loading flag, make the song current, and enqueue it if its identifier
is absent.  The URL resolution that follows is issued asynchronously. -/
def freshPlayStart (s : PlayerState) (song : Song) : PlayerState :=
  { s with
    isLoading := true
    currentSong := some song
    queue := addToQueue s.queue song }

/-- togglePlay of the source.  If no current song, do nothing.  If the
device has no source loaded, re-trigger playSong for the current song
(whose synchronous prefix is freshPlayStart, since the device source is
absent); the returned Bool records that a URL resolution was issued.
Otherwise toggle the play and pause state of the device. -/
def togglePlayState (s : PlayerState) : PlayerState × Bool :=
  match s.currentSong with
  | none => (s, false)
  | some c =>
    if s.device.src = none then
      (freshPlayStart s c, true)
    else if s.isPlaying then
      ({ s with isPlaying := false, device := { s.device with playing := false } }, false)
    else
      ({ s with isPlaying := true, device := { s.device with playing := true } }, false)

/-- Synchronous phase of playSong (up to the getSongUrl await).  When the
requested identifier equals the current one and the device has a loaded
source, delegate to togglePlay; otherwise run the fresh-play prefix and
issue a URL resolution (second component true). -/
def playSongSync (s : PlayerState) (song : Song) : PlayerState × Bool :=
  if s.currentSong.map Song.id = some song.id ∧ s.device.src.isSome then
    togglePlayState s
  else
    (freshPlayStart s song, true)

/-- Whether playSong issues the asynchronous getSongInfo artwork lookup
for the requested song: exactly when the song has no artwork yet. -/
def infoRequested (song : Song) : Bool := song.pic.isNone

/-- Continuation of playSong after getSongUrl settles.  url = none models
both a failed call and an empty result (the catch block and the else
branch both only clear the loading flag).  On a URL, the device source is
assigned and loaded (resetting its position) and play is requested;
playOk records whether the play promise resolved (autoplay policy), which
sets or clears the playing flag.  The continuation never re-reads or
re-assigns the current song. -/
def applyUrlResult (s : PlayerState) (_song : Song) (url : Option String)
    (playOk : Bool) : PlayerState :=
  match url with
  | some u =>
      { s with
        isPlaying := playOk
        device := { s.device with src := some u, pos := 0, playing := playOk } }
  | none => { s with isLoading := false }

/-- Continuation of the getSongInfo artwork lookup issued by playSong for
fullSong.  pic = none models a failed lookup or a result without artwork
(the guard info and info.pic); on artwork, the current song is replaced
only when its identifier still matches, and every queue entry with the
identifier is replaced. -/
def applyInfoResult (s : PlayerState) (fullSong : Song) (pic : Option String) :
    PlayerState :=
  match pic with
  | none => s
  | some p =>
    let updated : Song := { fullSong with pic := some p }
    { s with
      currentSong := s.currentSong.map (fun c => if c.id = fullSong.id then updated else c)
      queue := s.queue.map (fun t => if t.id = fullSong.id then updated else t) }

/-- Modelled from the spec: assigning currentTime on the HTML audio
element (the Output Device Adapter) clamps the position into the interval
from 0 to the known duration.  This is platform behavior, not repository
code. -/
def deviceSeek (d : AudioDevice) (t : ℚ) : AudioDevice :=
  { d with pos := max 0 (min t d.dur) }

/-- seek of the source: forward the raw time to the device and update the
elapsed-time state optimistically with the same raw value (no clamping in
the repository code). -/
def seek (s : PlayerState) (t : ℚ) : PlayerState :=
  { s with device := deviceSeek s.device t, currentTime := t }

/-- The timeupdate listener: copy the device position into the
elapsed-time state. -/
def handleTimeUpdate (s : PlayerState) : PlayerState :=
  { s with currentTime := s.device.pos }

/-- Successor index chosen by playNext: the shuffle pick in shuffle mode,
otherwise currentIndex + 1 modulo the queue length.  pick abstracts the
result of the shuffle rejection loop (characterized separately by
shufflePick).  Integer remainder is Int.emod, which agrees with the
JavaScript remainder here because the dividend ci + 1 is nonnegative
(findIndex returns at least -1). -/
def nextIdx (s : PlayerState) (pick : Nat) : Nat :=
  if s.playMode = PlayMode.shuffle then pick
  else ((jsFindIndex s.queue (currentId s) + 1) % (s.queue.length : Int)).toNat

/-- Predecessor index chosen by playPrev: the shuffle pick in shuffle
mode, otherwise currentIndex - 1 + length modulo the queue length.  The
dividend is negative only for findIndex -1 with a one-entry queue, where
the JavaScript remainder -1 mod 1 is a negative zero and both conventions
select index 0. -/
def prevIdx (s : PlayerState) (pick : Nat) : Nat :=
  if s.playMode = PlayMode.shuffle then pick
  else ((jsFindIndex s.queue (currentId s) - 1 + (s.queue.length : Int)) %
    (s.queue.length : Int)).toNat

/-- playNext: no-op on an empty queue or a null current song; on an ended
event (force false) in loop mode, restart the device at position 0 and
keep playing; otherwise play the song at the successor index.  The get?
fallback branch is unreachable whenever the chosen index is below the
queue length. -/
def playNextCore (s : PlayerState) (force : Bool) (pick : Nat) : PlayerState :=
  if s.queue.length = 0 ∨ s.currentSong = none then s
  else if force = false ∧ s.playMode = PlayMode.loop then
    { s with device := { s.device with pos := 0, playing := true } }
  else
    match s.queue.get? (nextIdx s pick) with
    | some t => (playSongSync s t).1
    | none => s

/-- playPrev, mirroring playNext without the loop-mode replay branch. -/
def playPrevCore (s : PlayerState) (pick : Nat) : PlayerState :=
  if s.queue.length = 0 ∨ s.currentSong = none then s
  else
    match s.queue.get? (prevIdx s pick) with
    | some t => (playSongSync s t).1
    | none => s

/-- Acceptance condition of the shuffle do-while loop: a candidate index j
is accepted unless the queue has more than one entry and j equals the
current index ci. -/
def shuffleAccept (len : Nat) (ci : Int) (j : Nat) : Prop :=
  ¬(1 < len ∧ (j : Int) = ci)

instance (len : Nat) (ci : Int) (j : Nat) : Decidable (shuffleAccept len ci j) := by
  unfold shuffleAccept
  infer_instance

/-- The shuffle do-while loop as a function of the stream of random draws
(each draw models Math.floor of Math.random times the queue length): the
first accepted draw is returned.  The hypothesis h is the almost-sure
termination of the loop, namely that some draw is accepted. -/
def shufflePick (draws : Nat → Nat) (len : Nat) (ci : Int)
    (h : ∃ i, shuffleAccept len ci (draws i)) : Nat :=
  draws (Nat.find h)

/-- Probabilistic semantics of the shuffle rejection loop, unrolled to t
trials: pickProb n k t j is the probability that the loop over a queue of
length n with current index k has returned index j within the first t
trials, given that each trial draws an index uniformly from 0 to n - 1.
A trial returns j when the draw lands on j and j differs from k
(probability 1 / n), and retries when the draw lands on k. -/
def pickProb (n k : Nat) : Nat → Nat → ℚ
  | 0, _ => 0
  | t + 1, j => (if j = k then 0 else (1 : ℚ) / n) + ((1 : ℚ) / n) * pickProb n k t j

/-- A JSON value, for the localStorage persistence layer. -/
inductive Json where
  | null
  | jbool (b : Bool)
  | jnum (q : ℚ)
  | jstr (s : String)
  | jarr (elems : List Json)
  | jobj (fields : List (String × Json))

/-- getLocal of the source: read a key from localStorage.  item = none
models an absent key (getItem returning null) or a read that throws;
an empty string is falsy in JavaScript and also yields the default;
parse returning none models JSON.parse throwing, caught by the try block.
A successfully parsed value is returned as is, without shape checks
(the source casts the parsed value to the expected type). -/
def getLocal (item : Option String) (parse : String → Option Json) (dflt : Json) :
    Json :=
  match item with
  | none => dflt
  | some s => if s = "" then dflt else (parse s).getD dflt

/-- The three raw localStorage records read at startup. -/
structure StoreRecords where
  queueRec : Option String := none
  songRec : Option String := none
  modeRec : Option String := none

/-- Startup value of the tunefree_queue key: getLocal with default empty
array. -/
def startupQueue (r : StoreRecords) (parse : String → Option Json) : Json :=
  getLocal r.queueRec parse (Json.jarr [])

/-- Startup value of the tunefree_current_song key: getLocal with default
null. -/
def startupSong (r : StoreRecords) (parse : String → Option Json) : Json :=
  getLocal r.songRec parse Json.null

/-- Startup value of the tunefree_play_mode key: getLocal with default the
sequence mode string. -/
def startupMode (r : StoreRecords) (parse : String → Option Json) : Json :=
  getLocal r.modeRec parse (Json.jstr "sequence")

/-- JSON encoding of a Song, as produced by JSON.stringify on the song
objects held in state. -/
def encodeSong (t : Song) : Json :=
  Json.jobj [("id", Json.jnum t.id), ("name", Json.jstr t.name),
    ("artist", Json.jstr t.artist),
    ("album", (t.album.map Json.jstr).getD Json.null),
    ("pic", (t.pic.map Json.jstr).getD Json.null),
    ("source", Json.jstr t.source),
    ("url", (t.url.map Json.jstr).getD Json.null)]

/-- JSON encoding of the queue. -/
def encodeQueue (q : List Song) : Json :=
  Json.jarr (q.map encodeSong)

/-- JSON encoding of the nullable current song. -/
def encodeCurrent (c : Option Song) : Json :=
  (c.map encodeSong).getD Json.null

/-- JSON encoding of the play mode string. -/
def encodeMode (m : PlayMode) : Json :=
  Json.jstr (match m with
    | PlayMode.sequence => "sequence"
    | PlayMode.loop => "loop"
    | PlayMode.shuffle => "shuffle")

/-- The snapshot written back by the three persistence effects: after any
change to queue, current song, or play mode, the corresponding key holds
the JSON encoding of the new value. -/
def syncStore (s : PlayerState) : Json × Json × Json :=
  (encodeQueue s.queue, encodeCurrent s.currentSong, encodeMode s.playMode)

/-- The mutating operations of the provider, for stating persistence. -/
inductive PlayerOp where
  | addQ (t : Song)
  | removeQ (sid : Nat)
  | clearQ
  | cycleMode
  | playS (song : Song)
  | nextOp (force : Bool) (pick : Nat)
  | prevOp (pick : Nat)
  | seekOp (t : ℚ)
  | toggleOp

/-- Apply a provider operation to the state (synchronous phase). -/
def applyOp (op : PlayerOp) (s : PlayerState) : PlayerState :=
  match op with
  | PlayerOp.addQ t => { s with queue := addToQueue s.queue t }
  | PlayerOp.removeQ sid => { s with queue := removeFromQueue s.queue sid }
  | PlayerOp.clearQ => { s with queue := clearQueue s.queue }
  | PlayerOp.cycleMode => { s with playMode := togglePlayMode s.playMode }
  | PlayerOp.playS song => (playSongSync s song).1
  | PlayerOp.nextOp force pick => playNextCore s force pick
  | PlayerOp.prevOp pick => playPrevCore s pick
  | PlayerOp.seekOp t => seek s t
  | PlayerOp.toggleOp => (togglePlayState s).1

/-- A state paired with the persisted snapshot; every operation is
followed by the persistence effects refreshing the snapshot. -/
def stepWithPersist (op : PlayerOp) (p : PlayerState × (Json × Json × Json)) :
    PlayerState × (Json × Json × Json) :=
  let s := applyOp op p.1
  (s, syncStore s)

/-- Concrete song used in witnesses and counterexamples. -/
def tA : Song := { id := 1 }

/-- Concrete song used in witnesses and counterexamples. -/
def tB : Song := { id := 2 }

/-- Concrete song used in witnesses and counterexamples. -/
def tC : Song := { id := 3 }

/-- Helper: the fresh branch of playSongSync. -/
theorem playSongSync_fresh (s : PlayerState) (t : Song)
    (h : ¬(s.currentSong.map Song.id = some t.id ∧ s.device.src.isSome)) :
    playSongSync s t = (freshPlayStart s t, true) := by
  rw [playSongSync, if_neg h]

/-- Helper: a song whose identifier differs from the current one is played
through the fresh path. -/
theorem playSongSync_differs (s : PlayerState) (t : Song) (c : Song)
    (hc : s.currentSong = some c) (hne : t.id ≠ c.id) :
    (playSongSync s t).1 = freshPlayStart s t := by
  have h : ¬(s.currentSong.map Song.id = some t.id ∧ s.device.src.isSome) := by
    rw [hc]
    rintro ⟨h1, _⟩
    simp only [Option.map_some', Option.some.injEq] at h1
    exact hne h1.symm
  rw [playSongSync_fresh s t h]

/-- C8: addToQueue appends the track at the end when no entry with its
identifier is present and leaves the queue unchanged otherwise; under the
queue uniqueness invariant (at most one entry per identifier), adding the
same track twice in succession leaves exactly one entry with its
identifier; moreover add preserves the uniqueness invariant. -/
theorem addToQueue_append_or_idempotent (q : List Song) (t : Song)
    (hq : (q.map Song.id).count t.id ≤ 1) :
    (t.id ∈ q.map Song.id → addToQueue q t = q) ∧
    (t.id ∉ q.map Song.id → addToQueue q t = q ++ [t]) ∧
    ((addToQueue (addToQueue q t) t).map Song.id).count t.id = 1 ∧
    (∀ i : Nat, (q.map Song.id).count i ≤ 1 →
      ((addToQueue q t).map Song.id).count i ≤ 1) := by
  by_cases hmem : t.id ∈ q.map Song.id
  · have h1 : 0 < (q.map Song.id).count t.id := List.count_pos_iff.mpr hmem
    have heq : addToQueue q t = q := by simp [addToQueue, hmem]
    refine ⟨fun _ => heq, fun hc => absurd hmem hc, ?_, ?_⟩
    · rw [heq, heq]
      omega
    · intro i hi
      rw [heq]
      exact hi
  · have hcount0 : (q.map Song.id).count t.id = 0 := List.count_eq_zero.mpr hmem
    have heq : addToQueue q t = q ++ [t] := by simp [addToQueue, hmem]
    have hmem2 : t.id ∈ (q ++ [t]).map Song.id := by simp
    have heq2 : addToQueue (q ++ [t]) t = q ++ [t] := by simp [addToQueue, hmem2]
    refine ⟨fun hc => absurd hc hmem, fun _ => heq, ?_, ?_⟩
    · rw [heq, heq2]
      simp [List.count_append, hcount0]
    · intro i hi
      rw [heq]
      by_cases hit : i = t.id
      · subst hit
        simp [List.count_append, hcount0]
      · have h0 : (List.map Song.id [t]).count i = 0 := by
          simp [List.count_eq_zero, hit]
        rw [List.map_append, List.count_append, h0]
        simpa using hi

/-- Witness for C8 at a concrete input. -/
theorem addToQueue_append_or_idempotent_witness :
    (([tB].map Song.id).count tA.id ≤ 1) ∧
    ((addToQueue (addToQueue [tB] tA) tA).map Song.id).count tA.id = 1 :=
  ⟨by decide, (addToQueue_append_or_idempotent [tB] tA (by decide)).2.2.1⟩

/-- Concrete session for the C4 counterexample: a track of duration 200 is
loaded and the player sits at elapsed time 10. -/
def cStateC4 : PlayerState :=
  { currentSong := some tA
    currentTime := 10
    duration := 200
    device := { src := some "u", pos := 10, dur := 200 } }

/-- C4 counterexample: seek with a negative time sets the elapsed-time
state to the raw negative value, not to 0; only the device position is
clamped.  The repository seek function performs no clamping on the state
it publishes. -/
theorem seek_counterexample :
    (seek cStateC4 (-5)).currentTime = -5 ∧
    (seek cStateC4 (-5)).currentTime ≠ 0 ∧
    (seek cStateC4 (-5)).device.pos = 0 := by
  refine ⟨rfl, by decide, by decide⟩

/-- C4 amended: seek forwards the raw time to the device, whose position
clamps into the interval from 0 to the duration; the elapsed-time state is
updated optimistically with the raw value and only reaches the clamped
value at the next timeupdate event from the device. -/
theorem seek_clamps_device_only (s : PlayerState) (t : ℚ)
    (hd : 0 ≤ s.device.dur) :
    (seek s t).device.pos = max 0 (min t s.device.dur) ∧
    0 ≤ (seek s t).device.pos ∧
    (seek s t).device.pos ≤ s.device.dur ∧
    (seek s t).currentTime = t ∧
    (handleTimeUpdate (seek s t)).currentTime = max 0 (min t s.device.dur) := by
  refine ⟨rfl, le_max_left 0 _, ?_, rfl, rfl⟩
  exact max_le hd (min_le_right t _)

/-- Witness for C4 amended, at the two example inputs of the claim. -/
theorem seek_clamps_device_only_witness :
    ((0 : ℚ) ≤ cStateC4.device.dur ∧
      (seek cStateC4 (-5)).device.pos = max 0 (min (-5) cStateC4.device.dur)) ∧
    (seek cStateC4 500).device.pos = 200 := by
  refine ⟨⟨by decide, (seek_clamps_device_only cStateC4 (-5) (by decide)).1⟩, by decide⟩

/-- C7: the artwork lookup continuation is fully silent on failure (the
state is unchanged), and on success it replaces the current song exactly
when the current identifier still matches the one the lookup was issued
for, while every queue entry with that identifier is replaced regardless
of which song is current; playback, device, and mode are untouched. -/
theorem applyInfoResult_spec (s : PlayerState) (song : Song) (p : String) :
    applyInfoResult s song none = s ∧
    (∀ c, s.currentSong = some c →
      (applyInfoResult s song (some p)).currentSong =
        some (if c.id = song.id then { song with pic := some p } else c)) ∧
    (s.currentSong = none → (applyInfoResult s song (some p)).currentSong = none) ∧
    (applyInfoResult s song (some p)).queue =
      s.queue.map (fun t => if t.id = song.id then { song with pic := some p } else t) ∧
    (applyInfoResult s song (some p)).isPlaying = s.isPlaying ∧
    (applyInfoResult s song (some p)).device = s.device ∧
    (applyInfoResult s song (some p)).playMode = s.playMode := by
  refine ⟨rfl, ?_, ?_, rfl, rfl, rfl, rfl⟩
  · intro c hc
    simp [applyInfoResult, hc]
  · intro hc
    simp [applyInfoResult, hc]

/-- Witness for C7 at a concrete input: the current song keeps matching,
so both the session and the queue entry receive the artwork. -/
theorem applyInfoResult_spec_witness :
    (({ currentSong := some tA, queue := [tA, tB] } : PlayerState).currentSong = some tA) ∧
    (applyInfoResult { currentSong := some tA, queue := [tA, tB] } tA (some "art")).currentSong =
      some (if tA.id = tA.id then { tA with pic := some "art" } else tA) :=
  ⟨rfl, (applyInfoResult_spec { currentSong := some tA, queue := [tA, tB] } tA "art").2.1 tA rfl⟩

/-- C5: calling playSong with the identifier of the current song delegates
to togglePlay when the device has a loaded source (no restart: current
song, device position, and device source are unchanged, and no URL
resolution is issued), and behaves as a fresh playSong when the device
has no source (loading flag set, song made current, resolution issued). -/
theorem playSong_sameId_toggles (s : PlayerState) (song : Song)
    (hid : s.currentSong.map Song.id = some song.id) :
    (s.device.src.isSome →
      playSongSync s song = togglePlayState s ∧
      (playSongSync s song).1.currentSong = s.currentSong ∧
      (playSongSync s song).1.device.pos = s.device.pos ∧
      (playSongSync s song).1.device.src = s.device.src ∧
      (playSongSync s song).2 = false) ∧
    (s.device.src = none →
      playSongSync s song = (freshPlayStart s song, true) ∧
      (playSongSync s song).1.isLoading = true ∧
      (playSongSync s song).1.currentSong = some song ∧
      (playSongSync s song).2 = true) := by
  obtain ⟨c, hc⟩ : ∃ c, s.currentSong = some c := by
    cases hcs : s.currentSong with
    | none => rw [hcs] at hid; exact absurd hid (by simp)
    | some c => exact ⟨c, rfl⟩
  constructor
  · intro hsrc
    have hcond : s.currentSong.map Song.id = some song.id ∧ s.device.src.isSome := ⟨hid, hsrc⟩
    have h1 : playSongSync s song = togglePlayState s := by
      simp only [playSongSync, if_pos hcond]
    obtain ⟨u, hu⟩ : ∃ u, s.device.src = some u := Option.isSome_iff_exists.mp hsrc
    have h2 : togglePlayState s =
        (if s.isPlaying then
          ({ s with isPlaying := false, device := { s.device with playing := false } }, false)
        else
          ({ s with isPlaying := true, device := { s.device with playing := true } }, false)) := by
      rw [togglePlayState, hc]
      simp [hu]
    rw [h1, h2]
    by_cases hp : s.isPlaying <;> simp [hp, hc]
  · intro hsrc
    have hcond : ¬(s.currentSong.map Song.id = some song.id ∧ s.device.src.isSome) := by
      rw [hsrc]
      simp
    have h1 : playSongSync s song = (freshPlayStart s song, true) := by
      simp only [playSongSync, if_neg hcond]
    rw [h1]
    exact ⟨rfl, rfl, rfl, rfl⟩

/-- Concrete session for the C5 witness: the current song has a loaded
source, so playSong on the same identifier toggles. -/
def cStateC5 : PlayerState :=
  { currentSong := some tA
    isPlaying := true
    queue := [tA]
    device := { src := some "u", pos := 42, dur := 200, playing := true } }

/-- Witness for C5 at a concrete input. -/
theorem playSong_sameId_toggles_witness :
    (cStateC5.currentSong.map Song.id = some tA.id ∧ cStateC5.device.src.isSome) ∧
    playSongSync cStateC5 tA = togglePlayState cStateC5 ∧
    (playSongSync cStateC5 tA).1.device.pos = cStateC5.device.pos :=
  ⟨⟨rfl, rfl⟩,
    ((playSong_sameId_toggles cStateC5 tA rfl).1 rfl).1,
    ((playSong_sameId_toggles cStateC5 tA rfl).1 rfl).2.2.1⟩

/-- C6: in loop mode an ended event (playNext with force false) leaves the
queue, the current song, the mode, the playback flag, and hence the queue
position unchanged; the device restarts at position 0 and keeps playing,
and the next timeupdate event publishes elapsed time 0 to the session. -/
theorem loopMode_ended_replays (s : PlayerState) (pick : Nat)
    (hm : s.playMode = PlayMode.loop) (hq : s.queue ≠ [])
    (hc : s.currentSong.isSome) :
    (playNextCore s false pick).queue = s.queue ∧
    (playNextCore s false pick).currentSong = s.currentSong ∧
    (playNextCore s false pick).playMode = s.playMode ∧
    (playNextCore s false pick).isPlaying = s.isPlaying ∧
    (playNextCore s false pick).currentTime = s.currentTime ∧
    (playNextCore s false pick).device.pos = 0 ∧
    (playNextCore s false pick).device.playing = true ∧
    (handleTimeUpdate (playNextCore s false pick)).currentTime = 0 ∧
    jsFindIndex (playNextCore s false pick).queue
        (currentId (playNextCore s false pick)) =
      jsFindIndex s.queue (currentId s) := by
  have hlen : ¬(s.queue.length = 0 ∨ s.currentSong = none) := by
    rcases Option.isSome_iff_exists.mp hc with ⟨c, hcs⟩
    simp [List.length_eq_zero, hq, hcs]
  have h : playNextCore s false pick =
      { s with device := { s.device with pos := 0, playing := true } } := by
    rw [playNextCore, if_neg hlen, if_pos ⟨rfl, hm⟩]
  rw [h]
  exact ⟨rfl, rfl, rfl, rfl, rfl, rfl, rfl, rfl, rfl⟩

/-- Concrete session for the C6 witness. -/
def cStateC6 : PlayerState :=
  { currentSong := some tA
    isPlaying := true
    currentTime := 57
    queue := [tA, tB]
    playMode := PlayMode.loop
    device := { src := some "u", pos := 57, dur := 60, playing := true } }

/-- Witness for C6 at a concrete input. -/
theorem loopMode_ended_replays_witness :
    (cStateC6.playMode = PlayMode.loop ∧ cStateC6.queue ≠ [] ∧
      cStateC6.currentSong.isSome) ∧
    (playNextCore cStateC6 false 0).currentSong = cStateC6.currentSong ∧
    (playNextCore cStateC6 false 0).device.pos = 0 :=
  ⟨⟨rfl, by decide, rfl⟩,
    (loopMode_ended_replays cStateC6 0 rfl (by decide) rfl).2.1,
    (loopMode_ended_replays cStateC6 0 rfl (by decide) rfl).2.2.2.2.2.1⟩

/-- Concrete session for the C3 counterexample: the queue holds only tA
while the current song tB is not in the queue. -/
def cStateC3 : PlayerState :=
  { currentSong := some tB
    queue := [tA]
    playMode := PlayMode.sequence }

/-- C3 counterexample: with a nonempty queue and a current song whose
identifier is not found in it, playNext is not a no-op: findIndex yields
-1, the sequential successor index is 0, and the first queue entry is
played, changing the session. -/
theorem nav_notFound_counterexample :
    tB.id ∉ cStateC3.queue.map Song.id ∧
    (playNextCore cStateC3 true 0).currentSong = some tA ∧
    playNextCore cStateC3 true 0 ≠ cStateC3 ∧
    (playPrevCore cStateC3 0).currentSong = some tA := by
  refine ⟨by decide, by decide, by decide, by decide⟩

/-- C3 amended: playNext and playPrev are no-ops exactly on an empty queue
or a null current song; when the current song is non-null but its
identifier is not found in the nonempty queue, findIndex returns -1 and
navigation proceeds from that value: in sequence mode playNext plays the
first queue entry and playPrev plays the entry at index
(length - 2) mod length. -/
theorem nav_noop_empty_or_null :
    (∀ (s : PlayerState) (f : Bool) (pick : Nat),
      s.queue = [] ∨ s.currentSong = none →
      playNextCore s f pick = s ∧ playPrevCore s pick = s) ∧
    (∀ (s : PlayerState) (f : Bool) (pick : Nat) (c : Song),
      s.currentSong = some c → s.queue ≠ [] →
      c.id ∉ s.queue.map Song.id → s.playMode = PlayMode.sequence →
      (playNextCore s f pick).currentSong = s.queue.get? 0 ∧
      (playPrevCore s pick).currentSong =
        s.queue.get? (((s.queue.length : Int) - 2) % (s.queue.length : Int)).toNat) := by
  constructor
  · intro s f pick h
    have h0 : s.queue.length = 0 ∨ s.currentSong = none := by
      rcases h with h | h
      · exact Or.inl (by simp [h])
      · exact Or.inr h
    exact ⟨by rw [playNextCore, if_pos h0], by rw [playPrevCore, if_pos h0]⟩
  · intro s f pick c hc hq hnot hm
    have hlen : 0 < s.queue.length := List.length_pos.mpr hq
    have hguard : ¬(s.queue.length = 0 ∨ s.currentSong = none) := by
      rintro (h0 | h0)
      · omega
      · rw [hc] at h0
        exact Option.noConfusion h0
    have hcid : currentId s = c.id := by
      rw [currentId, hc]
    have hidx : jsFindIndex s.queue (currentId s) = -1 := by
      rw [jsFindIndex]
      have hnone : s.queue.findIdx? (fun t => t.id == currentId s) = none := by
        rw [List.findIdx?_eq_none_iff]
        intro x hx
        have hxne : x.id ≠ c.id := fun he => hnot (he ▸ List.mem_map_of_mem Song.id hx)
        rw [hcid]
        simp [hxne]
      rw [hnone]
    have hnshuffle : ¬s.playMode = PlayMode.shuffle := by
      rw [hm]
      exact fun h2 => PlayMode.noConfusion h2
    have hnl : ¬(f = false ∧ s.playMode = PlayMode.loop) := by
      rw [hm]
      rintro ⟨_, h2⟩
      exact PlayMode.noConfusion h2
    have hni : nextIdx s pick = 0 := by
      rw [nextIdx, if_neg hnshuffle, hidx]
      simp
    have hpi : prevIdx s pick =
        (((s.queue.length : Int) - 2) % (s.queue.length : Int)).toNat := by
      rw [prevIdx, if_neg hnshuffle, hidx]
      have harith : (-1 - 1 + (s.queue.length : Int)) = (s.queue.length : Int) - 2 := by
        ring
      rw [harith]
    constructor
    · obtain ⟨t0, ht0⟩ : ∃ t0, s.queue.get? 0 = some t0 :=
        ⟨s.queue.get ⟨0, hlen⟩, List.get?_eq_get hlen⟩
      have ht0mem : t0 ∈ s.queue := List.get?_mem ht0
      have hne : t0.id ≠ c.id := fun he => hnot (he ▸ List.mem_map_of_mem Song.id ht0mem)
      rw [playNextCore, if_neg hguard, if_neg hnl, hni, ht0]
      show (playSongSync s t0).1.currentSong = some t0
      rw [playSongSync_differs s t0 c hc hne]
      rfl
    · have hl0 : (0 : Int) < (s.queue.length : Int) := by exact_mod_cast hlen
      have hmod1 := Int.emod_lt_of_pos ((s.queue.length : Int) - 2) hl0
      have hmod2 := Int.emod_nonneg ((s.queue.length : Int) - 2) (ne_of_gt hl0)
      have hplen : (((s.queue.length : Int) - 2) % (s.queue.length : Int)).toNat <
          s.queue.length := by omega
      obtain ⟨t1, ht1⟩ : ∃ t1, s.queue.get?
          ((((s.queue.length : Int) - 2) % (s.queue.length : Int)).toNat) = some t1 :=
        ⟨s.queue.get ⟨_, hplen⟩, List.get?_eq_get hplen⟩
      have ht1mem : t1 ∈ s.queue := List.get?_mem ht1
      have hne : t1.id ≠ c.id := fun he => hnot (he ▸ List.mem_map_of_mem Song.id ht1mem)
      rw [playPrevCore, if_neg hguard, hpi, ht1]
      show (playSongSync s t1).1.currentSong = some t1
      rw [playSongSync_differs s t1 c hc hne]
      rfl

/-- Witness for C3 amended at concrete inputs: the empty queue is a no-op
and the not-found state plays the first entry. -/
theorem nav_noop_empty_or_null_witness :
    (({ currentSong := some tA } : PlayerState).queue = [] ∨
      ({ currentSong := some tA } : PlayerState).currentSong = none) ∧
    playNextCore { currentSong := some tA } true 0 = { currentSong := some tA } ∧
    (playNextCore cStateC3 true 0).currentSong = cStateC3.queue.get? 0 :=
  ⟨Or.inl rfl,
    ((nav_noop_empty_or_null.1 { currentSong := some tA } true 0) (Or.inl rfl)).1,
    ((nav_noop_empty_or_null.2 cStateC3 true 0 tB rfl (by decide) (by decide) rfl)).1⟩

/-- State after starting playSong for tA from the empty session: tA is
current and its URL resolution is pending. -/
def c1s1 : PlayerState := (playSongSync {} tA).1

/-- State after starting playSong for tB while the resolution for tA is
still pending: tB is current, both resolutions are pending. -/
def c1s2 : PlayerState := (playSongSync c1s1 tB).1

/-- C1 counterexample: when the stale URL resolution for tA completes
after playSong for tB has made tB current, the session keeps tB as the
current song, but the result is not discarded: the URL of tA is assigned
to the device and the playback flag is mutated.  The URL continuation of
playSong performs no current-identifier check. -/
theorem staleUrl_counterexample :
    c1s2.currentSong = some tB ∧
    c1s2.device.src = none ∧
    c1s2.isPlaying = false ∧
    (applyUrlResult c1s2 tA (some "urlA") true).currentSong = some tB ∧
    (applyUrlResult c1s2 tA (some "urlA") true).device.src = some "urlA" ∧
    (applyUrlResult c1s2 tA (some "urlA") true).isPlaying = true := by
  refine ⟨by decide, by decide, by decide, by decide, by decide, by decide⟩

/-- C1 amended: the completion of a stale URL resolution leaves the
current song untouched (it remains B), because the continuation never
reassigns it; but the stale result is not discarded: the resolved URL is
loaded into the device (resetting its position), playback is requested,
and the playback flag is set to the outcome of the play call.  The failure
continuation only clears the loading flag. -/
theorem staleUrl_keeps_current_but_loads (s : PlayerState) (song B : Song)
    (u : String) (ok : Bool) (hcur : s.currentSong = some B)
    (_hne : song.id ≠ B.id) :
    (applyUrlResult s song (some u) ok).currentSong = some B ∧
    (applyUrlResult s song (some u) ok).device.src = some u ∧
    (applyUrlResult s song (some u) ok).device.pos = 0 ∧
    (applyUrlResult s song (some u) ok).isPlaying = ok ∧
    (applyUrlResult s song (some u) ok).queue = s.queue ∧
    (applyUrlResult s song (some u) ok).playMode = s.playMode ∧
    applyUrlResult s song none ok = { s with isLoading := false } := by
  exact ⟨hcur ▸ rfl, rfl, rfl, rfl, rfl, rfl, rfl⟩

/-- Witness for C1 amended at the concrete race of the counterexample
setup. -/
theorem staleUrl_keeps_current_but_loads_witness :
    (c1s2.currentSong = some tB ∧ tA.id ≠ tB.id) ∧
    (applyUrlResult c1s2 tA (some "urlA") true).currentSong = some tB ∧
    (applyUrlResult c1s2 tA (some "urlA") true).device.src = some "urlA" :=
  ⟨⟨by decide, by decide⟩,
    (staleUrl_keeps_current_but_loads c1s2 tA tB "urlA" true (by decide) (by decide)).1,
    (staleUrl_keeps_current_but_loads c1s2 tA tB "urlA" true (by decide) (by decide)).2.1⟩

/-- A concrete parse function agreeing with JSON.parse on the inputs used
by the C10 counterexample: the record string 0 parses to the number 0. -/
def parseZero : String → Option Json :=
  fun s => if s = "0" then some (Json.jnum 0) else none

/-- C10 counterexample: a persisted queue record holding the string 0 is
malformed as a session record (a Track array is expected), yet getLocal
returns the parsed number unchanged instead of the safe default: the
reader validates only that JSON.parse succeeds, never the shape. -/
theorem getLocal_shape_counterexample :
    getLocal (some "0") parseZero (Json.jarr []) = Json.jnum 0 ∧
    Json.jnum 0 ≠ Json.jarr [] :=
  ⟨rfl, fun h => Json.noConfusion h⟩

/-- C10 amended: the reader is total and returns the safe default exactly
for records that are absent, empty, or fail to parse (including reads
that throw); a record that parses successfully is returned without shape
validation.  At startup the three keys are read through getLocal with the
defaults empty queue, null current song, and sequence mode, so whenever
all three records are absent or unparseable the rehydrated snapshot is
the safe default one; and after every mutating operation the persisted
snapshot is rewritten to the encoding of the new queue, current song, and
mode. -/
theorem persistence_defaults_and_writeback :
    (∀ (parse : String → Option Json) (dflt : Json), getLocal none parse dflt = dflt) ∧
    (∀ (parse : String → Option Json) (dflt : Json) (str : String),
      parse str = none → getLocal (some str) parse dflt = dflt) ∧
    (∀ (parse : String → Option Json) (dflt : Json) (str : String) (v : Json),
      str ≠ "" → parse str = some v → getLocal (some str) parse dflt = v) ∧
    (∀ (r : StoreRecords) (parse : String → Option Json),
      (∀ str, parse str = none) →
      startupQueue r parse = Json.jarr [] ∧
      startupSong r parse = Json.null ∧
      startupMode r parse = Json.jstr "sequence") ∧
    (∀ (op : PlayerOp) (s : PlayerState) (store : Json × Json × Json),
      (stepWithPersist op (s, store)).2 =
        (encodeQueue (stepWithPersist op (s, store)).1.queue,
         encodeCurrent (stepWithPersist op (s, store)).1.currentSong,
         encodeMode (stepWithPersist op (s, store)).1.playMode)) := by
  refine ⟨fun parse dflt => rfl, ?_, ?_, ?_, fun op s store => rfl⟩
  · intro parse dflt str hp
    rw [getLocal]
    by_cases he : str = ""
    · rw [if_pos he]
    · rw [if_neg he, hp]
      rfl
  · intro parse dflt str v he hp
    rw [getLocal, if_neg he, hp]
    rfl
  · intro r parse hp
    have hall : ∀ (item : Option String) (dflt : Json), getLocal item parse dflt = dflt := by
      intro item dflt
      cases item with
      | none => rfl
      | some str =>
        rw [getLocal]
        by_cases he : str = ""
        · rw [if_pos he]
        · rw [if_neg he, hp]
          rfl
    exact ⟨hall r.queueRec _, hall r.songRec _, hall r.modeRec _⟩

/-- Witness for C10 amended at concrete inputs: an unparseable record and
an absent record both fall back to the defaults. -/
theorem persistence_defaults_and_writeback_witness :
    (parseZero "garbage" = none ∧
      getLocal (some "garbage") parseZero (Json.jarr []) = Json.jarr []) ∧
    getLocal none parseZero Json.null = Json.null :=
  ⟨⟨rfl, persistence_defaults_and_writeback.2.1 parseZero (Json.jarr []) "garbage" rfl⟩,
    persistence_defaults_and_writeback.1 parseZero Json.null⟩

/-- Helper: in a queue with pairwise distinct identifiers, entries at
distinct indices have distinct identifiers. -/
theorem queue_id_ne (q : List Song) (hq : (q.map Song.id).Nodup)
    {i j : Nat} (hi : i < q.length) (hj : j < q.length) (hij : i ≠ j) :
    (q.get ⟨i, hi⟩).id ≠ (q.get ⟨j, hj⟩).id := by
  intro he
  have hi2 : i < (q.map Song.id).length := by simpa using hi
  have hj2 : j < (q.map Song.id).length := by simpa using hj
  have hmap : (q.map Song.id)[i] = (q.map Song.id)[j] := by
    rw [List.getElem_map, List.getElem_map]
    simpa [List.get_eq_getElem] using he
  exact hij ((List.Nodup.getElem_inj_iff hq).mp hmap)

/-- Helper: findIndex on a queue with pairwise distinct identifiers,
probed with the identifier of the entry at index i, returns i. -/
theorem jsFindIndex_get (q : List Song) (hq : (q.map Song.id).Nodup)
    (i : Nat) (hi : i < q.length) :
    jsFindIndex q (q.get ⟨i, hi⟩).id = (i : Int) := by
  rw [jsFindIndex]
  have hfound : q.findIdx? (fun t => t.id == (q.get ⟨i, hi⟩).id) = some i := by
    rw [List.findIdx?_eq_some_iff_getElem]
    refine ⟨hi, by simp [List.get_eq_getElem], ?_⟩
    intro j hji
    have hj : j < q.length := Nat.lt_trans hji hi
    have hne : (q.get ⟨j, hj⟩).id ≠ (q.get ⟨i, hi⟩).id :=
      queue_id_ne q hq hj hi (Nat.ne_of_lt hji)
    simpa [List.get_eq_getElem] using hne
  rw [hfound]

/-- Helper: a single forced playNext step in sequence mode advances the
current song from index i to index (i + 1) mod length, leaving queue and
mode unchanged. -/
theorem seq_step (s : PlayerState) (pick : Nat) (i : Nat)
    (hi : i < s.queue.length) (hq : (s.queue.map Song.id).Nodup)
    (hn : 1 < s.queue.length) (hsm : s.playMode = PlayMode.sequence)
    (hc : s.currentSong = some (s.queue.get ⟨i, hi⟩)) (f : Bool) :
    ∃ h2 : (i + 1) % s.queue.length < s.queue.length,
      (playNextCore s f pick).queue = s.queue ∧
      (playNextCore s f pick).playMode = s.playMode ∧
      (playNextCore s f pick).currentSong =
        some (s.queue.get ⟨(i + 1) % s.queue.length, h2⟩) := by
  have h2 : (i + 1) % s.queue.length < s.queue.length := Nat.mod_lt _ (by omega)
  refine ⟨h2, ?_⟩
  have hguard : ¬(s.queue.length = 0 ∨ s.currentSong = none) := by
    rintro (h0 | h0)
    · omega
    · rw [hc] at h0
      exact Option.noConfusion h0
  have hnl : ¬(f = false ∧ s.playMode = PlayMode.loop) := by
    rw [hsm]
    rintro ⟨_, hx⟩
    exact PlayMode.noConfusion hx
  have hnshuffle : ¬s.playMode = PlayMode.shuffle := by
    rw [hsm]
    exact fun hx => PlayMode.noConfusion hx
  have hcid : currentId s = (s.queue.get ⟨i, hi⟩).id := by
    rw [currentId, hc]
  have hidx : jsFindIndex s.queue (currentId s) = (i : Int) := by
    rw [hcid]
    exact jsFindIndex_get s.queue hq i hi
  have hni : nextIdx s pick = (i + 1) % s.queue.length := by
    rw [nextIdx, if_neg hnshuffle, hidx]
    have hcast : ((i : Int) + 1) % (s.queue.length : Int) =
        (((i + 1) % s.queue.length : Nat) : Int) := by
      rw [Int.ofNat_emod]
      norm_num
    rw [hcast]
    exact Int.toNat_ofNat _
  have htarget : s.queue.get? (nextIdx s pick) =
      some (s.queue.get ⟨(i + 1) % s.queue.length, h2⟩) := by
    rw [hni]
    exact List.get?_eq_get h2
  have hstep : playNextCore s f pick =
      (playSongSync s (s.queue.get ⟨(i + 1) % s.queue.length, h2⟩)).1 := by
    rw [playNextCore, if_neg hguard, if_neg hnl, htarget]
  have hdiff : (i + 1) % s.queue.length ≠ i := by
    rcases Nat.lt_or_ge (i + 1) s.queue.length with hlt | hge
    · rw [Nat.mod_eq_of_lt hlt]
      omega
    · have hie : i + 1 = s.queue.length := by omega
      rw [hie, Nat.mod_self]
      omega
  have hne2 : (s.queue.get ⟨(i + 1) % s.queue.length, h2⟩).id ≠
      (s.queue.get ⟨i, hi⟩).id :=
    queue_id_ne s.queue hq h2 hi hdiff
  have hfresh := playSongSync_differs s
    (s.queue.get ⟨(i + 1) % s.queue.length, h2⟩) (s.queue.get ⟨i, hi⟩) hc hne2
  rw [hstep, hfresh]
  have hqeq : addToQueue s.queue (s.queue.get ⟨(i + 1) % s.queue.length, h2⟩) =
      s.queue := by
    rw [addToQueue, if_pos]
    exact List.mem_map_of_mem Song.id (s.queue.get_mem _ _)
  exact ⟨hqeq, rfl, rfl⟩

/-- Helper: m forced playNext steps in sequence mode advance the current
index by m modulo the queue length, leaving queue and mode unchanged. -/
theorem seq_iterate (q : List Song) (hq : (q.map Song.id).Nodup)
    (hn : 1 < q.length) (pick : Nat) (m : Nat) :
    ∀ (s : PlayerState) (i : Nat) (hi : i < q.length),
      s.queue = q → s.playMode = PlayMode.sequence →
      s.currentSong = some (q.get ⟨i, hi⟩) →
      ∃ h2 : (i + m) % q.length < q.length,
        ((fun st => playNextCore st true pick)^[m] s).queue = q ∧
        ((fun st => playNextCore st true pick)^[m] s).playMode = PlayMode.sequence ∧
        ((fun st => playNextCore st true pick)^[m] s).currentSong =
          some (q.get ⟨(i + m) % q.length, h2⟩) := by
  induction m with
  | zero =>
    intro s i hi hs hsm hc
    have h2 : (i + 0) % q.length < q.length := Nat.mod_lt _ (by omega)
    refine ⟨h2, ?_⟩
    have hidx : (i + 0) % q.length = i := by
      rw [Nat.add_zero, Nat.mod_eq_of_lt hi]
    have hfin : (⟨(i + 0) % q.length, h2⟩ : Fin q.length) = ⟨i, hi⟩ := Fin.ext hidx
    simp only [Function.iterate_zero, id_eq]
    exact ⟨hs, hsm, by rw [hc, hfin]⟩
  | succ m ih =>
    intro s i hi hs hsm hc
    subst hs
    obtain ⟨hstep2, hA, hB, hC⟩ := seq_step s pick i hi hq hn hsm hc true
    have hB2 : (playNextCore s true pick).playMode = PlayMode.sequence := by
      rw [hB, hsm]
    obtain ⟨h3, hQ, hM, hCur⟩ :=
      ih (playNextCore s true pick) ((i + 1) % s.queue.length) hstep2 hA hB2 hC
    have hiter : (fun st => playNextCore st true pick)^[m + 1] s =
        (fun st => playNextCore st true pick)^[m] (playNextCore s true pick) :=
      Function.iterate_succ_apply _ m s
    have hidx : ((i + 1) % s.queue.length + m) % s.queue.length =
        (i + (m + 1)) % s.queue.length := by
      rw [Nat.mod_add_mod]
      congr 1
      omega
    have h2 : (i + (m + 1)) % s.queue.length < s.queue.length := by
      rw [← hidx]
      exact h3
    refine ⟨h2, ?_, ?_, ?_⟩
    · rw [hiter]
      exact hQ
    · rw [hiter]
      exact hM
    · rw [hiter, hCur]
      exact congrArg some (congrArg s.queue.get (Fin.ext hidx))

/-- C9: in sequence mode with more than one track and the current track at
index k, a forced playNext moves the current track to index
(k + 1) mod length, and length many forced playNext calls return the
current track to index k with the queue unchanged (wrap invariant). -/
theorem seq_wrap (q : List Song) (k : Nat) (hk : k < q.length)
    (hq : (q.map Song.id).Nodup) (hn : 1 < q.length) (pick : Nat)
    (s : PlayerState) (hs : s.queue = q) (hsm : s.playMode = PlayMode.sequence)
    (hc : s.currentSong = some (q.get ⟨k, hk⟩)) :
    (∃ h2 : (k + 1) % q.length < q.length,
      (playNextCore s true pick).currentSong =
        some (q.get ⟨(k + 1) % q.length, h2⟩)) ∧
    ((fun st => playNextCore st true pick)^[q.length] s).currentSong =
      some (q.get ⟨k, hk⟩) ∧
    ((fun st => playNextCore st true pick)^[q.length] s).queue = q := by
  subst hs
  obtain ⟨h2, _, _, hC⟩ := seq_step s pick k hk hq hn hsm hc true
  refine ⟨⟨h2, hC⟩, ?_⟩
  obtain ⟨h3, hQ, _, hCur⟩ :=
    seq_iterate s.queue hq hn pick s.queue.length s k hk rfl hsm hc
  have hidx : (k + s.queue.length) % s.queue.length = k := by
    rw [Nat.add_mod_right]
    exact Nat.mod_eq_of_lt hk
  refine ⟨?_, hQ⟩
  rw [hCur]
  exact congrArg some (congrArg s.queue.get (Fin.ext hidx))

/-- Concrete session for the C9 witness: the three-track queue of the
specification example, with the middle track current. -/
def cStateC9 : PlayerState :=
  { currentSong := some tB
    queue := [tA, tB, tC]
    playMode := PlayMode.sequence }

/-- Witness for C9 at the example of the claim: from T2 in the queue
T1 T2 T3, one forced next yields T3, and three yield T2 again. -/
theorem seq_wrap_witness :
    (cStateC9.queue = [tA, tB, tC] ∧ ([tA, tB, tC].map Song.id).Nodup ∧
      cStateC9.currentSong = some ([tA, tB, tC].get ⟨1, by decide⟩)) ∧
    ((fun st => playNextCore st true 0)^[([tA, tB, tC] : List Song).length]
        cStateC9).currentSong = some ([tA, tB, tC].get ⟨1, by decide⟩) ∧
    (playNextCore cStateC9 true 0).currentSong = some tC ∧
    (playNextCore (playNextCore cStateC9 true 0) true 0).currentSong = some tA :=
  ⟨⟨rfl, by decide, rfl⟩,
    (seq_wrap [tA, tB, tC] 1 (by decide) (by decide) (by decide) 0 cStateC9 rfl rfl
      rfl).2.1,
    by decide, by decide⟩

/-- Helper: the rejection loop never returns the current index, so the
truncated distribution assigns it mass zero at every horizon. -/
theorem pickProb_at_current (n k t : Nat) : pickProb n k t k = 0 := by
  induction t with
  | zero => rfl
  | succ t iht =>
    rw [pickProb, if_pos rfl, iht]
    ring

/-- Helper: closed form of the truncated rejection-loop distribution at
any remaining index: identical for all of them, converging to one over
n - 1 as the horizon grows. -/
theorem pickProb_closed (n k : Nat) (hn : 1 < n) (t j : Nat) (hj : j ≠ k) :
    pickProb n k t j = (1 - ((1 : ℚ) / n) ^ t) / ((n : ℚ) - 1) := by
  have hn0 : (n : ℚ) ≠ 0 := Nat.cast_ne_zero.mpr (by omega)
  have hge : (2 : ℚ) ≤ (n : ℚ) := by exact_mod_cast (by omega : 2 ≤ n)
  have hn1 : (n : ℚ) - 1 ≠ 0 := by
    intro hx
    nlinarith
  induction t with
  | zero =>
    simp [pickProb]
  | succ t iht =>
    rw [pickProb, if_neg hj, iht, pow_succ]
    field_simp
    ring

/-- C2: the shuffle rejection loop, as a function of the random draw
stream, always returns an index of the queue different from the current
one when the queue has more than one entry; over a single-entry queue it
returns index 0, the only entry; lifted to playNext in shuffle mode, the
played song never matches the current identifier; and the truncated
probabilistic semantics of the loop assigns equal mass to every remaining
index, mass zero to the current one, and mass with the uniform closed
form one minus the retry mass over n - 1. -/
theorem shuffle_pick_spec :
    (∀ (draws : Nat → Nat) (n k : Nat) (h : ∃ i, shuffleAccept n (k : Int) (draws i)),
      (∀ i, draws i < n) → 1 < n →
      shufflePick draws n (k : Int) h < n ∧ shufflePick draws n (k : Int) h ≠ k) ∧
    (∀ (draws : Nat → Nat) (k : Int) (h : ∃ i, shuffleAccept 1 k (draws i)),
      (∀ i, draws i < 1) → shufflePick draws 1 k h = 0) ∧
    (∀ (s : PlayerState) (draws : Nat → Nat) (k : Nat) (hk : k < s.queue.length)
      (h : ∃ i, shuffleAccept s.queue.length (k : Int) (draws i)),
      s.playMode = PlayMode.shuffle → (s.queue.map Song.id).Nodup →
      1 < s.queue.length → (∀ i, draws i < s.queue.length) →
      s.currentSong = some (s.queue.get ⟨k, hk⟩) →
      ∃ hp : shufflePick draws s.queue.length (k : Int) h < s.queue.length,
        (playNextCore s true
            (shufflePick draws s.queue.length (k : Int) h)).currentSong =
          some (s.queue.get ⟨shufflePick draws s.queue.length (k : Int) h, hp⟩) ∧
        (s.queue.get ⟨shufflePick draws s.queue.length (k : Int) h, hp⟩).id ≠
          (s.queue.get ⟨k, hk⟩).id) ∧
    (∀ (n k t j j2 : Nat), 1 < n → j ≠ k → j2 ≠ k →
      pickProb n k t j = pickProb n k t j2 ∧
      pickProb n k t k = 0 ∧
      pickProb n k t j = (1 - ((1 : ℚ) / n) ^ t) / ((n : ℚ) - 1)) := by
  refine ⟨?_, ?_, ?_, ?_⟩
  · intro draws n k h hd hn
    have hacc : shuffleAccept n (k : Int) (draws (Nat.find h)) := Nat.find_spec h
    refine ⟨hd _, ?_⟩
    intro he
    have he2 : draws (Nat.find h) = k := he
    exact hacc ⟨hn, by exact_mod_cast he2⟩
  · intro draws k h hd
    have h1 : shufflePick draws 1 k h < 1 := hd (Nat.find h)
    omega
  · intro s draws k hk h hmode hq hn hd hc
    have hacc : shuffleAccept s.queue.length (k : Int) (draws (Nat.find h)) :=
      Nat.find_spec h
    have hplt : shufflePick draws s.queue.length (k : Int) h < s.queue.length := hd _
    have hpk : shufflePick draws s.queue.length (k : Int) h ≠ k := by
      intro he
      have he2 : draws (Nat.find h) = k := he
      exact hacc ⟨hn, by exact_mod_cast he2⟩
    have hguard : ¬(s.queue.length = 0 ∨ s.currentSong = none) := by
      rintro (h0 | h0)
      · omega
      · rw [hc] at h0
        exact Option.noConfusion h0
    have hnl : ¬(true = false ∧ s.playMode = PlayMode.loop) := by
      rintro ⟨hx, _⟩
      exact Bool.noConfusion hx
    have hni : nextIdx s (shufflePick draws s.queue.length (k : Int) h) =
        shufflePick draws s.queue.length (k : Int) h := by
      rw [nextIdx, if_pos hmode]
    have htarget : s.queue.get? (nextIdx s (shufflePick draws s.queue.length (k : Int) h)) =
        some (s.queue.get ⟨shufflePick draws s.queue.length (k : Int) h, hplt⟩) := by
      rw [hni]
      exact List.get?_eq_get hplt
    have hne2 : (s.queue.get ⟨shufflePick draws s.queue.length (k : Int) h, hplt⟩).id ≠
        (s.queue.get ⟨k, hk⟩).id :=
      queue_id_ne s.queue hq hplt hk hpk
    have hstep : playNextCore s true (shufflePick draws s.queue.length (k : Int) h) =
        (playSongSync s
          (s.queue.get ⟨shufflePick draws s.queue.length (k : Int) h, hplt⟩)).1 := by
      rw [playNextCore, if_neg hguard, if_neg hnl, htarget]
    refine ⟨hplt, ?_, hne2⟩
    rw [hstep, playSongSync_differs s _ _ hc hne2]
    rfl
  · intro n k t j j2 hn hj hj2
    refine ⟨?_, pickProb_at_current n k t, pickProb_closed n k hn t j hj⟩
    rw [pickProb_closed n k hn t j hj, pickProb_closed n k hn t j2 hj2]

/-- Concrete draw stream for the C2 witness. -/
def drawsW : Nat → Nat := fun i => i % 3

/-- The concrete draw stream accepts some draw (termination of the
rejection loop). -/
theorem drawsW_acc : ∃ i, shuffleAccept 3 (0 : Int) (drawsW i) :=
  ⟨1, by decide⟩

/-- Witness for C2 at concrete inputs: a three-entry queue with current
index 0, the stream drawing 0 then 1, and the truncated distribution at
horizon 2. -/
theorem shuffle_pick_spec_witness :
    (drawsW 0 < 3 ∧ (1 : Nat) < 3) ∧
    (shufflePick drawsW 3 (0 : Int) drawsW_acc < 3 ∧
      shufflePick drawsW 3 (0 : Int) drawsW_acc ≠ 0) ∧
    pickProb 3 0 2 1 = (1 - ((1 : ℚ) / 3) ^ 2) / ((3 : ℚ) - 1) :=
  ⟨⟨by decide, by decide⟩,
    shuffle_pick_spec.1 drawsW 3 0 drawsW_acc (fun i => Nat.mod_lt i (by decide))
      (by decide),
    (shuffle_pick_spec.2.2.2 3 0 2 1 2 (by decide) (by decide) (by decide)).2.2⟩

end TuneFree
